import Mathlib

/-!
# Shallow embedding of the `rust-tabular` codec

This file embeds the core of the `tabular` library (DSV and fixed-width
row/column codecs, `src/dsv.rs`, `src/fixed.rs`, `src/common.rs`) into Lean
and proves properties of the embedded code.

Modelling conventions:
* a character source is a `List Char`; reading a character is taking the head,
  and an empty list corresponds to the `EndOfFile` condition of the Rust
  `Buffer::read_char`;
* a character sink is the `List Char` returned alongside the `IoResult`;
  partial output written before an error is preserved, as it is in the source;
* `IoResult<T>` is `Except IoError T`, with `IoError` keeping the `kind` and
  `desc` fields that the library's error values and tests use;
* the tokenizer cursor structs (`Columns` in both modules) are state records
  threaded explicitly; the borrowed reader becomes an explicit
  `List Char` argument and result component;
* the unbounded loops of the row/stream layer (column collection, blank-line
  skipping, row iteration) are embedded with an explicit fuel argument.  Each
  loop iteration of the source either consumes input or reaches a terminal
  state, so the fuel chosen at every entry point (input length plus a small
  constant) is never exhausted; the fuel-exhaustion branches are unreachable
  for those entry points.
-/

/-- Error kind of `std::io::IoError` restricted to the kinds the library uses. -/
inductive IoErrorKind where
  | EndOfFile
  | InvalidInput
deriving DecidableEq, Repr

/-- The `kind` and `desc` fields of `std::io::IoError` (the `detail` field is
always `None` in this library). -/
structure IoError where
  kind : IoErrorKind
  desc : String
deriving DecidableEq, Repr

/-- Error returned by `Buffer::read_char` at end of input. -/
def eofError : IoError := ⟨.EndOfFile, "end of file"⟩

/-- Static `INVALID_LINE_ENDING` of `src/common.rs`. -/
def INVALID_LINE_ENDING : IoError := ⟨.InvalidInput, "Invalid line ending"⟩

/-- Line terminator catalog of `src/common.rs`. -/
inductive LineTerminator where
  | LF
  | CR
  | CRLF
  | VT
  | FF
  | NEL
  | LS
  | PS
deriving DecidableEq, Repr

namespace LineTerminator

/-- Character sequence of `LineTerminator::as_str`, as a list of code points. -/
def as_chars : LineTerminator → List Char
  | .LF => ['\n']
  | .CR => ['\r']
  | .CRLF => ['\r', '\n']
  | .VT => ['\x0B']
  | .FF => ['\x0C']
  | .NEL => ['\u0085']
  | .LS => ['\u2028']
  | .PS => ['\u2029']

/-- UTF-8 byte length of `LineTerminator::as_str` (Rust `str::len` counts
bytes: NEL is two bytes, LS and PS are three). -/
def byte_len : LineTerminator → Nat
  | .LF => 1
  | .CR => 1
  | .CRLF => 2
  | .VT => 1
  | .FF => 1
  | .NEL => 2
  | .LS => 3
  | .PS => 3

/-- `LineTerminator::is_beginning`: does `ch` equal the first character of the
terminator's literal. -/
def is_beginning (lt : LineTerminator) (ch : Char) : Bool :=
  match lt.as_chars with
  | [] => false
  | c :: _ => ch == c

end LineTerminator

namespace dsv

/-- Quote escape rule (`dsv::Escape`). -/
inductive Escape where
  | Double
  | Char (c : Char)
  | Disallowed
deriving DecidableEq, Repr

/-- Column quoting rule (`dsv::Quote`). -/
inductive Quote where
  | Never
  | Always
  | Minimal
deriving DecidableEq, Repr

/-- DSV grammar configuration (`dsv::Config`). -/
structure Config where
  delimiter : Char
  quote_char : Char
  escape : Escape
  line_terminator : LineTerminator
  quote : Quote
deriving DecidableEq, Repr

/-- `Config::escape_char`. -/
def escape_char (cfg : Config) : Option Char :=
  match cfg.escape with
  | .Double => some cfg.quote_char
  | .Char ch => some ch
  | .Disallowed => none

/-- The `CSV` preset (RFC 4180): comma, double quote, doubled-quote escaping,
CRLF, minimal quoting. -/
def CSV : Config := ⟨',', '"', .Double, .CRLF, .Minimal⟩

/-- The `TSV` preset: tab delimiter, NUL quote char, escaping disallowed,
CRLF, never quote. -/
def TSV : Config := ⟨'\t', '\x00', .Disallowed, .CRLF, .Never⟩

/-- Mutable cursor state of `dsv::Columns` (the reader itself is threaded
separately as a `List Char`). -/
structure ColState where
  row_done : Bool
  done : Bool
  allow_empty : Bool
  column : Nat
  pos : Nat
deriving DecidableEq, Repr

/-- Initial cursor state built by `dsv::read_row`. -/
def initState : ColState :=
  { row_done := false, done := false, allow_empty := false, column := 0, pos := 0 }

/-- `Columns::read_char`: take one character; `pos` is incremented only on
success. -/
def read_char (input : List Char) (st : ColState) :
    Except IoError Char × List Char × ColState :=
  match input with
  | [] => (.error eofError, [], st)
  | c :: rest => (.ok c, rest, { st with pos := st.pos + 1 })

/-- Loop body of `Columns::read_line_terminator`: match the remaining expected
terminator characters (the first character was already consumed by the
caller); afterwards mark the row complete. -/
def readLTLoop : List Char → List Char → ColState →
    Except IoError Unit × List Char × ColState
  | [], input, st => (.ok (), input, { st with row_done := true })
  | _ :: _, [], st => (.error eofError, [], st)
  | e :: es, c :: rest, st =>
    if c = e then readLTLoop es rest { st with pos := st.pos + 1 }
    else (.error INVALID_LINE_ENDING, rest, { st with pos := st.pos + 1 })

/-- `Columns::read_line_terminator`: consume and verify the expected
terminator characters after its first character. -/
def read_line_terminator (cfg : Config) (input : List Char) (st : ColState) :
    Except IoError Unit × List Char × ColState :=
  readLTLoop (cfg.line_terminator.as_chars.drop 1) input st

/-- Static error "Expecting line terminator or delimiter" of
`Columns::quoted_end`. -/
def EXPECTING_LT_OR_DELIM : IoError :=
  ⟨.InvalidInput, "Expecting line terminator or delimiter"⟩

/-- Static error "Expecting quote char" of `Columns::read_quoted_column`. -/
def EXPECTING_QUOTE_CHAR : IoError := ⟨.InvalidInput, "Expecting quote char"⟩

/-- `Columns::quoted_end`: dispatch on the character following a closing
quote. -/
def quoted_end (cfg : Config) (next : Except IoError Char) (res : List Char)
    (input : List Char) (st : ColState) :
    Except IoError (List Char) × List Char × ColState :=
  match next with
  | .ok ch =>
    if ch = cfg.delimiter then (.ok res, input, st)
    else if cfg.line_terminator.is_beginning ch then
      match read_line_terminator cfg input st with
      | (.ok (), input', st') => (.ok res, input', st')
      | (.error err, input', st') => (.error err, input', st')
    else (.error EXPECTING_LT_OR_DELIM, input, st)
  | .error err =>
    if err.kind = .EndOfFile then
      (.ok res, input, { st with row_done := true, done := true })
    else (.error err, input, st)

/-- Loop of `Columns::read_quoted_column`: accumulate characters after the
opening quote, handling the three escape rules exactly as the source's
three-way branch does. -/
def readQuotedLoop (cfg : Config) (col : List Char) :
    List Char → ColState → Except IoError (List Char) × List Char × ColState
  | [], st => (.error eofError, [], st)
  | ch :: rest, st =>
    let st1 := { st with pos := st.pos + 1 }
    if escape_char cfg ≠ some cfg.quote_char ∧ some ch = escape_char cfg then
      match rest with
      | [] => (.error EXPECTING_QUOTE_CHAR, [], st1)
      | q :: rest2 =>
        let st2 := { st1 with pos := st1.pos + 1 }
        if q = cfg.quote_char then readQuotedLoop cfg (col ++ [q]) rest2 st2
        else (.error EXPECTING_QUOTE_CHAR, rest2, st2)
    else if escape_char cfg ≠ some cfg.quote_char ∧ ch = cfg.quote_char then
      match rest with
      | [] => quoted_end cfg (.error eofError) col [] st1
      | c :: rest2 =>
        quoted_end cfg (.ok c) col rest2 { st1 with pos := st1.pos + 1 }
    else if ch = cfg.quote_char then
      match rest with
      | [] => quoted_end cfg (.error eofError) col [] st1
      | c :: rest2 =>
        let st2 := { st1 with pos := st1.pos + 1 }
        if c = cfg.quote_char then readQuotedLoop cfg (col ++ [c]) rest2 st2
        else quoted_end cfg (.ok c) col rest2 st2
    else readQuotedLoop cfg (col ++ [ch]) rest st1

/-- `Columns::read_quoted_column`: sets `allow_empty` and scans the quoted
content (the opening quote was consumed by `read_column`). -/
def read_quoted_column (cfg : Config) (input : List Char) (st : ColState) :
    Except IoError (List Char) × List Char × ColState :=
  readQuotedLoop cfg [] input { st with allow_empty := true }

/-- `Columns::check_eof`: end-of-input while scanning unquoted content is a
valid field end iff the row is not already done and the accumulated content
is nonempty or an empty field is allowed. -/
def check_eof (err : IoError) (allow_empty : Bool) (res : List Char)
    (input : List Char) (st : ColState) :
    Except IoError (List Char) × List Char × ColState :=
  if st.row_done = false ∧ err.kind = .EndOfFile ∧ (res.length > 0 ∨ allow_empty = true) then
    (.ok res, input, { st with row_done := true, done := true })
  else (.error err, input, st)

/-- Loop of `Columns::read_unquoted_column` once a current character is in
hand: terminator start, delimiter, or accumulate and read on. -/
def readUnquotedLoop (cfg : Config) (col : List Char) (ch : Char) :
    List Char → ColState → Except IoError (List Char) × List Char × ColState
  | input, st =>
    if cfg.line_terminator.is_beginning ch then
      match read_line_terminator cfg input st with
      | (.ok (), input', st') => (.ok col, input', st')
      | (.error err, input', st') => (.error err, input', st')
    else if ch ≠ cfg.delimiter then
      match input with
      | [] => check_eof eofError (decide (st.column > 0)) (col ++ [ch]) [] st
      | c :: rest =>
        readUnquotedLoop cfg (col ++ [ch]) c rest { st with pos := st.pos + 1 }
    else (.ok col, input, st)

/-- `Columns::read_unquoted_column`: clear `allow_empty`, then scan from the
already-read first result. -/
def read_unquoted_column (cfg : Config) (curr : Except IoError Char)
    (input : List Char) (st : ColState) :
    Except IoError (List Char) × List Char × ColState :=
  let st := { st with allow_empty := false }
  match curr with
  | .ok ch => readUnquotedLoop cfg [] ch input st
  | .error err => check_eof err (decide (st.column > 0)) [] input st

/-- `Columns::read_column`: read the first character, dispatch to quoted or
unquoted scanning, and count the column on success. -/
def read_column (cfg : Config) (input : List Char) (st : ColState) :
    Except IoError (List Char) × List Char × ColState :=
  let r :=
    match read_char input st with
    | (.ok ch, input1, st1) =>
      if cfg.quote = Quote.Never then read_unquoted_column cfg (.ok ch) input1 st1
      else if cfg.quote_char = ch then read_quoted_column cfg input1 st1
      else read_unquoted_column cfg (.ok ch) input1 st1
    | (.error err, input1, st1) => read_unquoted_column cfg (.error err) input1 st1
  match r with
  | (.ok res, input1, st1) => (.ok res, input1, { st1 with column := st1.column + 1 })
  | err => err

/-- `Columns::next` (the `Iterator` impl).  The recursive `self.next()` call
in the blank-line branch happens with `row_done` already `true`, so it
returns `None` with the state unchanged; that call is inlined here as
`(none, input', st')`. -/
def colsNext (cfg : Config) (input : List Char) (st : ColState) :
    Option (Except IoError (List Char)) × List Char × ColState :=
  if st.row_done then (none, input, st)
  else
    match read_column cfg input st with
    | (.error err, input', st') =>
      let st' := { st' with row_done := true }
      if st'.pos = 0 ∧ err.kind = .EndOfFile then (none, input', { st' with done := true })
      else (some (.error err), input', st')
    | (.ok res, input', st') =>
      if st'.row_done = true ∧ st'.allow_empty = false ∧
          st'.pos = cfg.line_terminator.byte_len then
        (none, input', st')
      else (some (.ok res), input', st')

/-- Column-collection loop of `dsv::read_row`: pull columns until `None`,
propagating the first error.  `fuel` bounds the iteration count; every
`Some` step of the source either consumes input or completes the row, so
`input.length + 2` (as passed by `read_row`) always suffices. -/
def collectCols (cfg : Config) : Nat → List Char → ColState → List (List Char) →
    Except IoError (List (List Char)) × List Char × ColState
  | 0, input, st, acc => (.ok acc, input, st)
  | fuel + 1, input, st, acc =>
    match colsNext cfg input st with
    | (none, input', st') => (.ok acc, input', st')
    | (some (.ok c), input', st') => collectCols cfg fuel input' st' (acc ++ [c])
    | (some (.error err), input', st') => (.error err, input', st')

/-- `dsv::read_row`: assemble one row from a fresh `Columns` cursor; a row
with zero fields that is not the end of the stream is a skipped blank line
and reading restarts.  `fuel` bounds the blank-line recursion; each skipped
blank line consumes at least one character, so `input.length + 1` (as passed
by `readRowsList`) always suffices. -/
def read_row (cfg : Config) : Nat → List Char →
    Except IoError (List (List Char)) × List Char
  | 0, input => (.ok [], input)
  | fuel + 1, input =>
    match collectCols cfg (input.length + 2) input initState [] with
    | (.error err, input', _) => (.error err, input')
    | (.ok res, input', st) =>
      if res.length = 0 ∧ st.done = false then read_row cfg fuel input'
      else (.ok res, input')

/-- Collected output of the `dsv::Rows` iterator: rows until the terminal
zero-field row, with a trailing error value if a row fails.  `fuel` bounds
the number of rows; each yielded row consumes input, so `input.length + 1`
(as passed by `read_rows`) always suffices. -/
def readRowsList (cfg : Config) : Nat → List Char →
    List (Except IoError (List (List Char)))
  | 0, _ => []
  | fuel + 1, input =>
    match read_row cfg (input.length + 1) input with
    | (.ok row, input') =>
      if row.length = 0 then []
      else .ok row :: readRowsList cfg fuel input'
    | (.error err, _) => [.error err]

/-- `dsv::read_rows` collected into a list (the iterator is pull-based and
finite). -/
def read_rows (cfg : Config) (input : List Char) :
    List (Except IoError (List (List Char))) :=
  readRowsList cfg (input.length + 1) input

/-- Static `MUST_QUOTE` writer error. -/
def MUST_QUOTE : IoError := ⟨.InvalidInput, "Value should be quoted"⟩

/-- Static `ESCAPE_DISALLOWED` writer error. -/
def ESCAPE_DISALLOWED : IoError := ⟨.InvalidInput, "Escaping disallowed"⟩

/-- Static `ESCAPE_CHAR_IN_QUOTE` writer error (the typo in `desc` is the
source's). -/
def ESCAPE_CHAR_IN_QUOTE : IoError :=
  ⟨.InvalidInput, "Escape characted not allowed in quote"⟩

/-- `dsv::is_quote_required`: always under `Always`, otherwise whenever the
column contains the delimiter or a terminator-starting character. -/
def is_quote_required (cfg : Config) (col : List Char) : Bool :=
  if cfg.quote = Quote.Always then true
  else col.any fun ch => ch == cfg.delimiter || cfg.line_terminator.is_beginning ch

/-- Per-character loop of the quoted branch of `dsv::write_column`; returns
the result together with the characters written before any error. -/
def writeQuotedLoop (cfg : Config) : List Char → Except IoError Unit × List Char
  | [] => (.ok (), [])
  | ch :: rest =>
    if ch = cfg.quote_char then
      match escape_char cfg with
      | some e =>
        let (r, out) := writeQuotedLoop cfg rest
        (r, e :: ch :: out)
      | none => (.error ESCAPE_DISALLOWED, [])
    else if some ch = escape_char cfg then (.error ESCAPE_CHAR_IN_QUOTE, [])
    else
      let (r, out) := writeQuotedLoop cfg rest
      (r, ch :: out)

/-- `dsv::write_column`: quote-and-escape, write raw, or fail with
`MUST_QUOTE`; the second component is everything written to the sink. -/
def write_column (cfg : Config) (col : List Char) : Except IoError Unit × List Char :=
  if is_quote_required cfg col then
    if cfg.quote = Quote.Never then (.error MUST_QUOTE, [])
    else
      match writeQuotedLoop cfg col with
      | (.ok (), out) => (.ok (), cfg.quote_char :: out ++ [cfg.quote_char])
      | (.error err, out) => (.error err, cfg.quote_char :: out)
  else (.ok (), col)

/-- Column loop of `dsv::write_row`: delimiters between columns via the
`first` flag. -/
def writeRowLoop (cfg : Config) (first : Bool) :
    List (List Char) → Except IoError Unit × List Char
  | [] => (.ok (), [])
  | col :: rest =>
    let pre : List Char := if first then [] else [cfg.delimiter]
    match write_column cfg col with
    | (.ok (), out) =>
      let (r, out2) := writeRowLoop cfg false rest
      (r, pre ++ out ++ out2)
    | (.error err, out) => (.error err, pre ++ out)

/-- `dsv::write_row`: columns joined by the delimiter, then the terminator
literal. -/
def write_row (cfg : Config) (row : List (List Char)) :
    Except IoError Unit × List Char :=
  match writeRowLoop cfg true row with
  | (.ok (), out) => (.ok (), out ++ cfg.line_terminator.as_chars)
  | err => err

/-- `dsv::write_rows`: rows back to back, stopping at the first error. -/
def write_rows (cfg : Config) : List (List (List Char)) →
    Except IoError Unit × List Char
  | [] => (.ok (), [])
  | row :: rest =>
    match write_row cfg row with
    | (.ok (), out) =>
      let (r, out2) := write_rows cfg rest
      (r, out ++ out2)
    | (.error err, out) => (.error err, out)

end dsv

namespace fixed

/-- Text justification (`fixed::Justification`). -/
inductive Justification where
  | Left
  | Right
deriving DecidableEq, Repr

/-- Line ending rule (`fixed::LineEnding`). -/
inductive LineEnding where
  | Nothing
  | FixedWidth (w : Nat)
  | Newline (lt : LineTerminator)
deriving DecidableEq, Repr

/-- Per-column configuration (`fixed::ColumnConfig`). -/
structure ColumnConfig where
  width : Nat
  pad_with : Char
  justification : Justification
deriving DecidableEq, Repr

/-- Fixed-width grammar configuration (`fixed::Config`). -/
structure Config where
  columns : List ColumnConfig
  line_end : LineEnding
deriving DecidableEq, Repr

/-- Mutable cursor state of `fixed::Columns`. -/
structure ColState where
  column : Nat
  pos : Nat
  done : Bool
deriving DecidableEq, Repr

/-- Initial cursor state built by `fixed::read_row`. -/
def initState : ColState := { column := 0, pos := 0, done := false }

/-- `fixed::Columns::read_char`: here `pos` is incremented before the read, so
a failed read also counts. -/
def read_char (input : List Char) (st : ColState) :
    Except IoError Char × List Char × ColState :=
  let st := { st with pos := st.pos + 1 }
  match input with
  | [] => (.error eofError, [], st)
  | c :: rest => (.ok c, rest, st)

/-- `Columns::read_str`: read exactly `len` characters. -/
def read_str : Nat → List Char → ColState →
    Except IoError (List Char) × List Char × ColState
  | 0, input, st => (.ok [], input, st)
  | n + 1, input, st =>
    match read_char input st with
    | (.ok c, input', st') =>
      match read_str n input' st' with
      | (.ok s, input'', st'') => (.ok (c :: s), input'', st'')
      | (.error err, input'', st'') => (.error err, input'', st'')
    | (.error err, input', st') => (.error err, input', st')

/-- Rust `str::trim_right_chars(pad)`: drop all trailing `pad` characters. -/
def trimRightChars (col : List Char) (pad : Char) : List Char :=
  (col.reverse.dropWhile fun c => c == pad).reverse

/-- Rust `str::trim_left_chars(pad)`: drop all leading `pad` characters. -/
def trimLeftChars (col : List Char) (pad : Char) : List Char :=
  col.dropWhile fun c => c == pad

/-- `fixed::Columns::read_column`: read exactly `width` characters, then trim
the padding on the side opposite the justification. -/
def read_column (ccfg : ColumnConfig) (input : List Char) (st : ColState) :
    Except IoError (List Char) × List Char × ColState :=
  match read_str ccfg.width input st with
  | (.ok col, input', st') =>
    let trimmed :=
      if ccfg.justification = Justification.Left then trimRightChars col ccfg.pad_with
      else trimLeftChars col ccfg.pad_with
    (.ok trimmed, input', st')
  | (.error err, input', st') => (.error err, input', st')

/-- Loop of `fixed::Columns::read_newline`: verify the full terminator
literal; `curr_pos` is the value of `pos` at entry, used to tolerate end of
input exactly at the terminator boundary. -/
def readNewlineLoop (curr_pos : Nat) : List Char → List Char → ColState →
    Except IoError Unit × List Char × ColState
  | [], input, st => (.ok (), input, st)
  | e :: es, input, st =>
    match read_char input st with
    | (.ok ch, input', st') =>
      if ch = e then readNewlineLoop curr_pos es input' st'
      else (.error INVALID_LINE_ENDING, input', st')
    | (.error err, input', st') =>
      if err.kind = .EndOfFile ∧ curr_pos + 1 = st'.pos then (.ok (), input', st')
      else (.error err, input', st')

/-- `fixed::Columns::read_newline`. -/
def read_newline (lt : LineTerminator) (input : List Char) (st : ColState) :
    Except IoError Unit × List Char × ColState :=
  readNewlineLoop st.pos lt.as_chars input st

/-- `fixed::Columns::read_fixed_width`: skip filler characters up to the
configured total row width.  The source computes `width - self.pos` in `uint`
arithmetic; this is modelled with truncated `Nat` subtraction (the rows
considered never overrun the configured width). -/
def read_fixed_width (w : Nat) (input : List Char) (st : ColState) :
    Except IoError Unit × List Char × ColState :=
  match read_str (w - st.pos) input st with
  | (.ok _, input', st') => (.ok (), input', st')
  | (.error err, input', st') => (.error err, input', st')

/-- `fixed::Columns::read_line_ending`. -/
def read_line_ending (cfg : Config) (input : List Char) (st : ColState) :
    Except IoError Unit × List Char × ColState :=
  match cfg.line_end with
  | .Nothing => (.ok (), input, st)
  | .FixedWidth w => read_fixed_width w input st
  | .Newline lt => read_newline lt input st

/-- Tail of `fixed::Columns::next` shared by the `Ok` and `Err` column
results: after the last column, read the line ending (an error there
replaces the column result), then recompute `done`. -/
def colsFinish (cfg : Config) (col : Except IoError (List Char))
    (input : List Char) (st : ColState) :
    Option (Except IoError (List Char)) × List Char × ColState :=
  if st.column = cfg.columns.length then
    match read_line_ending cfg input st with
    | (.ok (), input2, st2) =>
      (some col, input2, { st2 with done := decide (cfg.columns.length ≤ st2.column) })
    | (.error err, input2, st2) => (some (.error err), input2, { st2 with done := true })
  else (some col, input, { st with done := decide (cfg.columns.length ≤ st.column) })

/-- `fixed::Columns::next` (the `Iterator` impl).  The out-of-bounds index
case is where the source would fail a task (`Vec::get` panics); it is
unreachable for the configurations with at least as many columns as the
cursor ever requests, which is all that the theorems below use. -/
def colsNext (cfg : Config) (input : List Char) (st : ColState) :
    Option (Except IoError (List Char)) × List Char × ColState :=
  if st.done then (none, input, st)
  else
    match cfg.columns[st.column]? with
    | none => (none, input, st)
    | some ccfg =>
      let st0 := { st with column := st.column + 1 }
      match read_column ccfg input st0 with
      | (.ok col, input1, st1) => colsFinish cfg (.ok col) input1 st1
      | (.error err, input1, st1) =>
        let st1 := { st1 with done := true }
        if err.kind = .EndOfFile ∧ st1.pos = 1 then (none, input1, st1)
        else colsFinish cfg (.error err) input1 st1

/-- Column-collection loop of `fixed::read_row`.  Every `Some` step
increments the cursor's column index, so the fuel `columns.length + 1`
passed by `read_row` always suffices. -/
def collectCols (cfg : Config) : Nat → List Char → ColState → List (List Char) →
    Except IoError (List (List Char)) × List Char
  | 0, input, _, acc => (.ok acc, input)
  | fuel + 1, input, st, acc =>
    match colsNext cfg input st with
    | (none, input', _) => (.ok acc, input')
    | (some (.ok c), input', st') => collectCols cfg fuel input' st' (acc ++ [c])
    | (some (.error err), input', _) => (.error err, input')

/-- `fixed::read_row`: assemble one row from a fresh cursor. -/
def read_row (cfg : Config) (input : List Char) :
    Except IoError (List (List Char)) × List Char :=
  collectCols cfg (cfg.columns.length + 1) input initState []

/-- One step of the `fixed::Rows` iterator: `done` is the iterator's flag;
a zero-field row terminates the stream, an error terminates it after being
yielded. -/
def rows_next (cfg : Config) (input : List Char) (done : Bool) :
    Option (Except IoError (List (List Char))) × List Char × Bool :=
  if done then (none, input, done)
  else
    match read_row cfg input with
    | (.ok row, input') =>
      if row.length = 0 then (none, input', true)
      else (some (.ok row), input', false)
    | (.error err, input') => (some (.error err), input', true)

/-- Static `COLUMN_TOO_LONG` writer error. -/
def COLUMN_TOO_LONG : IoError := ⟨.InvalidInput, "Column too long"⟩

/-- Static `ROW_TOO_LONG` writer error (its `desc` duplicates
`COLUMN_TOO_LONG`'s in the source). -/
def ROW_TOO_LONG : IoError := ⟨.InvalidInput, "Column too long"⟩

/-- Rust `str::len` of a field: its UTF-8 byte length. -/
def str_len (col : List Char) : Nat := (col.map Char.utf8Size).sum

/-- `fixed::write_column`: fail with `COLUMN_TOO_LONG` if the field exceeds
the column width (writing nothing), otherwise pad with the column's pad
character opposite the justification. -/
def write_column (ccfg : ColumnConfig) (col : List Char) :
    Except IoError Unit × List Char :=
  if ccfg.width < str_len col then (.error COLUMN_TOO_LONG, [])
  else
    let padding := List.replicate (ccfg.width - str_len col) ccfg.pad_with
    if ccfg.justification = Justification.Left then (.ok (), col ++ padding)
    else (.ok (), padding ++ col)

/-- Column loop of `fixed::write_row` over `row.iter().zip(columns)`,
accumulating the written column widths; an error aborts with the partial
output. -/
def writeRowCols : List (List Char × ColumnConfig) →
    Except IoError Unit × List Char × Nat
  | [] => (.ok (), [], 0)
  | (col, ccfg) :: rest =>
    match write_column ccfg col with
    | (.ok (), out) =>
      let (r, out2, written) := writeRowCols rest
      (r, out ++ out2, ccfg.width + written)
    | (.error err, out) => (.error err, out, 0)

/-- `fixed::write_row`: write the zipped columns, then apply the line-ending
policy; under `FixedWidth` the row is padded with spaces (not the columns'
pad characters) or fails with `ROW_TOO_LONG` after the columns were
written. -/
def write_row (cfg : Config) (row : List (List Char)) :
    Except IoError Unit × List Char :=
  match writeRowCols (row.zip cfg.columns) with
  | (.error err, out, _) => (.error err, out)
  | (.ok (), out, written) =>
    match cfg.line_end with
    | .Nothing => (.ok (), out)
    | .FixedWidth w =>
      if w < written then (.error ROW_TOO_LONG, out)
      else (.ok (), out ++ List.replicate (w - written) ' ')
    | .Newline lt => (.ok (), out ++ lt.as_chars)

end fixed

/-! ## The CSV writer's output, in closed form -/

/-- Quoted-content encoding of the CSV writer: every quote character is
doubled. -/
def csvEsc : List Char → List Char
  | [] => []
  | c :: r => if c = '"' then '"' :: '"' :: csvEsc r else c :: csvEsc r

/-- One field as the CSV writer emits it: quoted and escaped when quoting is
required, raw otherwise. -/
def csvField (f : List Char) : List Char :=
  if dsv.is_quote_required dsv.CSV f then '"' :: (csvEsc f ++ ['"']) else f

/-- Fields written after the first one: each preceded by the delimiter. -/
def csvTail : List (List Char) → List Char
  | [] => []
  | f :: fs => ',' :: (csvField f ++ csvTail fs)

/-- One row's fields joined by the delimiter. -/
def csvBody : List (List Char) → List Char
  | [] => []
  | f :: fs => csvField f ++ csvTail fs

/-- A whole row sequence as written: terminated lines back to back. -/
def csvFile : List (List (List Char)) → List Char
  | [] => []
  | r :: rs => (csvBody r ++ ['\r', '\n']) ++ csvFile rs

/-- A field is reread correctly when it cannot be mistaken for a quoted
field: it does not start with the quote character unless the writer quotes
it anyway. -/
def csvGoodField (f : List Char) : Prop :=
  f.head? ≠ some '"' ∨ dsv.is_quote_required dsv.CSV f = true

/-- A row round-trips when it is nonempty, is not the single empty field
(whose written line is a blank line, skipped on reread), and all its fields
are good. -/
def csvGoodRow (r : List (List Char)) : Prop :=
  r ≠ [] ∧ r ≠ [[]] ∧ ∀ f ∈ r, csvGoodField f

instance (f : List Char) : Decidable (csvGoodField f) :=
  inferInstanceAs (Decidable (f.head? ≠ some '"' ∨ dsv.is_quote_required dsv.CSV f = true))

instance (r : List (List Char)) : Decidable (csvGoodRow r) :=
  inferInstanceAs (Decidable (r ≠ [] ∧ r ≠ [[]] ∧ ∀ f ∈ r, csvGoodField f))


/-- Sanity check mirroring the source test `read_fixed_columns_with_padding`:
padding is trimmed on the justification's opposite side. -/
theorem fixed_read_row_padding : fixed.read_row
    ⟨[⟨3, ' ', .Right⟩, ⟨1, '#', .Right⟩, ⟨5, '-', .Left⟩], .Newline .CRLF⟩
    "  a#cccc-".toList = (.ok [['a'], [], ['c','c','c','c']], []) := by rfl

/-- Sanity check mirroring the source test
`read_fixed_columns_with_newline_end`. -/
theorem fixed_read_row_newline_end : fixed.read_row
    ⟨[⟨3, ' ', .Right⟩, ⟨1, '#', .Right⟩], .Newline .CRLF⟩
    "aaab\r\n".toList = (.ok [['a','a','a'], ['b']], []) := by rfl

/-- Sanity check of the width-0 first-column quirk: an empty source still
yields a row. -/
theorem fixed_rows_next_zero_width : fixed.rows_next
    ⟨[⟨0, ' ', .Left⟩], .Newline .CRLF⟩ [] false =
    (some (.ok [[]]), [], false) := by rfl

/-- Sanity check mirroring the source test `write_column_with_padding_left`. -/
theorem fixed_write_column_padding : fixed.write_column ⟨3, ' ', .Right⟩ ['a'] =
    (.ok (), [' ', ' ', 'a']) := by rfl

/-- Sanity check mirroring the source test
`write_error_on_fixed_row_columns_too_long`: the columns are written before
the row-too-long failure. -/
theorem fixed_write_row_too_long : fixed.write_row
    ⟨[⟨3, ' ', .Right⟩, ⟨1, '#', .Right⟩], .FixedWidth 3⟩
    [['a','a','a'], ['b']] = (.error fixed.ROW_TOO_LONG, "aaab".toList) := by rfl

/-- Sanity check against the source's doc example: two CRLF-separated rows
read back. -/
theorem dsv_read_rows_two_rows : dsv.read_rows dsv.CSV "aa,bb\r\ncc,dd".toList =
    [.ok [['a','a'], ['b','b']], .ok [['c','c'], ['d','d']]] := by rfl

/-- Sanity check: a lone delimiter line is one row of two empty fields. -/
theorem dsv_read_rows_lone_delim : dsv.read_rows dsv.CSV ",\r\n".toList =
    [.ok [[], []]] := by rfl

/-- Sanity check mirroring the source test `empty_column_line_end`: a blank
line yields no rows. -/
theorem dsv_read_rows_blank : dsv.read_rows dsv.CSV "\r\n".toList = [] := by rfl

/-- Sanity check mirroring the source test `rows_are_written_correctly`:
a field containing the delimiter is quoted. -/
theorem dsv_write_rows_quoting : dsv.write_rows dsv.CSV [[['f','o','o'], ['b',',','r']]] =
    (.ok (), "foo,\"b,r\"\r\n".toList) := by rfl



/-! ## Shared helper lemmas -/

namespace dsv

/-- With the row already complete, `Columns::next` returns `None` and
leaves reader and state untouched: this is the re-entrant call that the
blank-line branch of `colsNext` inlines. -/
theorem colsNext_row_done (cfg : Config) (input : List Char) (st : ColState)
    (h : st.row_done = true) : colsNext cfg input st = (none, input, st) := by
  rw [colsNext, if_pos h]

/-- Reading a line-terminator tail that is present verbatim succeeds,
consumes exactly it, and marks the row complete. -/
theorem readLTLoop_append (t : List Char) : ∀ (rest : List Char) (st : ColState),
    readLTLoop t (t ++ rest) st =
      (.ok (), rest, { st with pos := st.pos + t.length, row_done := true }) := by
  induction t with
  | nil => intro rest st; simp [readLTLoop]
  | cons e es ih =>
    intro rest st
    simp [readLTLoop, ih, Nat.add_comm, Nat.add_assoc, Nat.add_left_comm]

end dsv

namespace fixed

/-- Reading one or more characters from an empty source fails at once with
the end-of-file error, counting the single failed read in `pos`. -/
theorem read_str_succ_nil (n : Nat) (st : ColState) :
    read_str (n + 1) [] st = (.error eofError, [], { st with pos := st.pos + 1 }) := by
  simp [read_str, read_char]

end fixed

/-! ## Claim theorems -/

/-- C2: with the CSV configuration, reading the empty string produces zero
rows; reading the string consisting of exactly one line terminator produces
zero rows (the blank line is skipped, not returned as a row); and reading a
lone delimiter followed by the line terminator produces exactly one row with
two empty fields. -/
theorem C2_csv_empty_blank_lone_delimiter :
    dsv.read_rows dsv.CSV [] = [] ∧
    dsv.read_rows dsv.CSV ['\r', '\n'] = [] ∧
    dsv.read_rows dsv.CSV [',', '\r', '\n'] = [.ok [[], []]] :=
  ⟨rfl, rfl, rfl⟩

/-- C6: for the fixed-width reader with a terminator line-ending policy,
after the last column: a source that ends after zero terminator characters
completes the row without error; a read character that differs from the
expected terminator character fails with the invalid-line-ending error (both
at the first position, for every terminator, and at the second position of
CRLF); and a source that ends after the proper nonempty prefix `'\r'` of
CRLF propagates the end-of-input error instead of tolerating it. -/
theorem C6_fixed_terminator_boundary (lt : LineTerminator) (st : fixed.ColState) :
    (fixed.read_newline lt [] st = (.ok (), [], { st with pos := st.pos + 1 })) ∧
    (∀ e es c rest, lt.as_chars = e :: es → c ≠ e →
      fixed.read_newline lt (c :: rest) st =
        (.error INVALID_LINE_ENDING, rest, { st with pos := st.pos + 1 })) ∧
    (∀ c rest, c ≠ '\n' →
      fixed.read_newline .CRLF ('\r' :: c :: rest) st =
        (.error INVALID_LINE_ENDING, rest, { st with pos := st.pos + 2 })) ∧
    (fixed.read_newline .CRLF ['\r'] st = (.error eofError, [], { st with pos := st.pos + 2 })) := by
  refine ⟨?_, ?_, ?_, ?_⟩
  · cases lt <;>
      simp [fixed.read_newline, fixed.readNewlineLoop, fixed.read_char,
        LineTerminator.as_chars, eofError]
  · intro e es c rest h hne
    rw [fixed.read_newline, h]
    simp [fixed.readNewlineLoop, fixed.read_char, hne]
  · intro c rest hne
    simp [fixed.read_newline, fixed.readNewlineLoop, fixed.read_char,
      LineTerminator.as_chars, hne, Nat.add_assoc]
  · simp [fixed.read_newline, fixed.readNewlineLoop, fixed.read_char,
      LineTerminator.as_chars, eofError, Nat.add_assoc]

/-- C6 witness: the mismatch cases of `C6_fixed_terminator_boundary`
instantiated at CRLF with the character `'x'`. -/
theorem C6_witness :
    fixed.read_newline .CRLF ['x'] fixed.initState =
      (.error INVALID_LINE_ENDING, [], { fixed.initState with pos := 1 }) ∧
    fixed.read_newline .CRLF ['\r', 'x'] fixed.initState =
      (.error INVALID_LINE_ENDING, [], { fixed.initState with pos := 2 }) := by
  have h := C6_fixed_terminator_boundary .CRLF fixed.initState
  exact ⟨h.2.1 '\r' ['\n'] 'x' [] (by decide) (by decide), h.2.2.1 'x' [] (by decide)⟩

/-- C7 counterexample: with a configuration whose first column has width 0,
an empty source at the start of a row does not terminate the stream — the
row iterator yields the row `[""]` (and would do so forever), refuting the
claim's universal quantification over configurations. -/
theorem C7_counterexample :
    fixed.rows_next ⟨[⟨0, ' ', fixed.Justification.Left⟩], .Newline .CRLF⟩ [] false =
      (some (.ok [[]]), [], false) ∧
    (fixed.rows_next ⟨[⟨0, ' ', fixed.Justification.Left⟩], .Newline .CRLF⟩ [] false).1 ≠
      none := by
  refine ⟨rfl, ?_⟩
  have h1 : (fixed.rows_next ⟨[⟨0, ' ', fixed.Justification.Left⟩], .Newline .CRLF⟩
      [] false).1 = some (.ok [[]]) := rfl
  rw [h1]
  simp

/-- C7 amended: for every fixed-width configuration whose first column has
width at least 1, a source with zero characters at the very start of a row
terminates the stream (the row iterator yields `none`) rather than returning
an error or a row; and a column of width 0 always yields an empty field
while consuming zero characters, for any configuration containing it. -/
theorem C7_amended :
    (∀ (c0 : fixed.ColumnConfig) (cols : List fixed.ColumnConfig)
        (le : fixed.LineEnding), 1 ≤ c0.width →
      fixed.rows_next ⟨c0 :: cols, le⟩ [] false = (none, [], true)) ∧
    (∀ (ccfg : fixed.ColumnConfig) (input : List Char) (st : fixed.ColState),
      ccfg.width = 0 → fixed.read_column ccfg input st = (.ok [], input, st)) := by
  constructor
  · intro c0 cols le h
    obtain ⟨n, hn⟩ : ∃ n, c0.width = n + 1 := ⟨c0.width - 1, by omega⟩
    simp [fixed.rows_next, fixed.read_row, fixed.collectCols, fixed.colsNext,
      fixed.initState, fixed.read_column, hn, fixed.read_str_succ_nil, eofError]
  · intro ccfg input st h
    cases hj : ccfg.justification <;>
      simp [fixed.read_column, h, fixed.read_str, hj,
        fixed.trimRightChars, fixed.trimLeftChars]

/-- C7 witness: `C7_amended` applied to a one-column width-3 configuration
and to a concrete width-0 column. -/
theorem C7_witness :
    fixed.rows_next ⟨[⟨3, ' ', fixed.Justification.Right⟩], .Newline .CRLF⟩ [] false =
      (none, [], true) ∧
    fixed.read_column ⟨0, '-', fixed.Justification.Right⟩ ['a'] fixed.initState =
      (.ok [], ['a'], fixed.initState) :=
  ⟨C7_amended.1 ⟨3, ' ', fixed.Justification.Right⟩ [] (.Newline .CRLF) (by decide),
   C7_amended.2 ⟨0, '-', fixed.Justification.Right⟩ ['a'] fixed.initState (by decide)⟩

/-- C8: the fixed-width column writer fails with `COLUMN_TOO_LONG` and
writes nothing when the field is longer than the column width; otherwise it
emits the field padded to the column width with the column's pad character,
on the right under left justification and on the left under right
justification.  (Length is Rust `str::len`, i.e. UTF-8 bytes.) -/
theorem C8_fixed_write_column (ccfg : fixed.ColumnConfig) (col : List Char) :
    (ccfg.width < fixed.str_len col →
      fixed.write_column ccfg col = (.error fixed.COLUMN_TOO_LONG, [])) ∧
    (fixed.str_len col ≤ ccfg.width →
      fixed.write_column ccfg col = (.ok (),
        if ccfg.justification = fixed.Justification.Left then
          col ++ List.replicate (ccfg.width - fixed.str_len col) ccfg.pad_with
        else
          List.replicate (ccfg.width - fixed.str_len col) ccfg.pad_with ++ col)) := by
  constructor
  · intro h; simp [fixed.write_column, h]
  · intro h
    simp only [fixed.write_column, Nat.not_lt.mpr h, if_false]
    split <;> rfl

/-- C8 witness: `C8_fixed_write_column` at a 3-wide space-padded
right-justified column with field `"a"`, and at a 5-wide column with a
6-character field. -/
theorem C8_witness :
    fixed.write_column ⟨3, ' ', fixed.Justification.Right⟩ ['a'] =
      (.ok (), [' ', ' ', 'a']) ∧
    fixed.write_column ⟨5, '-', fixed.Justification.Left⟩
      ['c', 'c', 'c', 'c', 'c', 'c'] = (.error fixed.COLUMN_TOO_LONG, []) := by
  constructor
  · have h := (C8_fixed_write_column ⟨3, ' ', fixed.Justification.Right⟩ ['a']).2 (by decide)
    simpa using h
  · exact (C8_fixed_write_column ⟨5, '-', fixed.Justification.Left⟩
      ['c', 'c', 'c', 'c', 'c', 'c']).1 (by decide)

namespace fixed

/-- When every zipped field fits its column, the column loop of `write_row`
succeeds, writing the concatenated padded columns and accumulating the sum
of the paired column widths. -/
theorem writeRowCols_ok (pairs : List (List Char × ColumnConfig))
    (h : ∀ p ∈ pairs, str_len p.1 ≤ p.2.width) :
    writeRowCols pairs =
      (.ok (), (pairs.map fun p => (write_column p.2 p.1).2).flatten,
       (pairs.map fun p => p.2.width).sum) := by
  induction pairs with
  | nil => simp [writeRowCols]
  | cons p rest ih =>
    have hp : str_len p.1 ≤ p.2.width := h p (by simp)
    have hw : write_column p.2 p.1 = (.ok (), (write_column p.2 p.1).2) := by
      rw [write_column]
      rw [if_neg (Nat.not_lt.mpr hp)]
      split <;> simp [write_column, Nat.not_lt.mpr hp]
    rw [writeRowCols, hw, ih fun q hq => h q (by simp [hq])]
    simp

end fixed

/-- C10: under the fixed-total-row-width policy, when the zipped columns all
fit and their summed widths do not exceed the configured total, the row
writer pads the row to the total with the space character, regardless of the
columns' configured pad characters; when the summed widths exceed the total
it fails with `ROW_TOO_LONG` after the columns were already written. -/
theorem C10_fixed_write_row_total_width (cols : List fixed.ColumnConfig)
    (w : Nat) (row : List (List Char))
    (h : ∀ p ∈ row.zip cols, fixed.str_len p.1 ≤ p.2.width) :
    (((row.zip cols).map fun p => p.2.width).sum ≤ w →
      fixed.write_row ⟨cols, .FixedWidth w⟩ row =
        (.ok (), ((row.zip cols).map fun p => (fixed.write_column p.2 p.1).2).flatten ++
          List.replicate (w - ((row.zip cols).map fun p => p.2.width).sum) ' ')) ∧
    (w < ((row.zip cols).map fun p => p.2.width).sum →
      fixed.write_row ⟨cols, .FixedWidth w⟩ row =
        (.error fixed.ROW_TOO_LONG,
         ((row.zip cols).map fun p => (fixed.write_column p.2 p.1).2).flatten)) := by
  constructor
  · intro hle
    rw [fixed.write_row, fixed.writeRowCols_ok _ h]
    simp [Nat.not_lt.mpr hle]
  · intro hlt
    rw [fixed.write_row, fixed.writeRowCols_ok _ h]
    simp [hlt]

/-- C10 witness: `C10_fixed_write_row_total_width` at a two-column
configuration with `'#'`-padding, once under a total width of 6 (space
padding appears) and once under a total width of 3 (row too long after the
columns were written). -/
theorem C10_witness :
    fixed.write_row ⟨[⟨3, ' ', fixed.Justification.Right⟩,
        ⟨1, '#', fixed.Justification.Right⟩], .FixedWidth 6⟩
      [['a'], []] = (.ok (), "  a#  ".toList) ∧
    fixed.write_row ⟨[⟨3, ' ', fixed.Justification.Right⟩,
        ⟨1, '#', fixed.Justification.Right⟩], .FixedWidth 3⟩
      [['a','a','a'], ['b']] = (.error fixed.ROW_TOO_LONG, "aaab".toList) := by
  constructor
  · have h := (C10_fixed_write_row_total_width
      [⟨3, ' ', fixed.Justification.Right⟩, ⟨1, '#', fixed.Justification.Right⟩] 6
      [['a'], []] (by decide)).1 (by decide)
    rw [h]; rfl
  · have h := (C10_fixed_write_row_total_width
      [⟨3, ' ', fixed.Justification.Right⟩, ⟨1, '#', fixed.Justification.Right⟩] 3
      [['a','a','a'], ['b']] (by decide)).2 (by decide)
    rw [h]; rfl

/-- C4: in DSV quoted scanning, for every configuration, the character
after a closing quote must be the delimiter (field ends, state untouched,
row continues), or a terminator-starting character (the remaining terminator
characters are consumed and the row is marked complete; a mismatch in them
fails with the invalid-line-ending error), or end of input (row and stream
both marked complete); any other character fails with the
expecting-line-terminator-or-delimiter error. -/
theorem C4_quoted_end (cfg : dsv.Config) (col input : List Char) (st : dsv.ColState) :
    (dsv.quoted_end cfg (.ok cfg.delimiter) col input st = (.ok col, input, st)) ∧
    (∀ ch, ch ≠ cfg.delimiter → cfg.line_terminator.is_beginning ch = false →
      dsv.quoted_end cfg (.ok ch) col input st =
        (.error dsv.EXPECTING_LT_OR_DELIM, input, st)) ∧
    (∀ ch rest, ch ≠ cfg.delimiter → cfg.line_terminator.is_beginning ch = true →
      input = cfg.line_terminator.as_chars.drop 1 ++ rest →
      dsv.quoted_end cfg (.ok ch) col input st =
        (.ok col, rest, { st with
          pos := st.pos + (cfg.line_terminator.as_chars.drop 1).length,
          row_done := true })) ∧
    (∀ ch e es c r, ch ≠ cfg.delimiter → cfg.line_terminator.is_beginning ch = true →
      cfg.line_terminator.as_chars.drop 1 = e :: es → input = c :: r → c ≠ e →
      dsv.quoted_end cfg (.ok ch) col input st =
        (.error INVALID_LINE_ENDING, r, { st with pos := st.pos + 1 })) ∧
    (∀ err : IoError, err.kind = .EndOfFile →
      dsv.quoted_end cfg (.error err) col input st =
        (.ok col, input, { st with row_done := true, done := true })) := by
  refine ⟨?_, ?_, ?_, ?_, ?_⟩
  · simp [dsv.quoted_end]
  · intro ch h1 h2
    simp [dsv.quoted_end, h1, h2]
  · intro ch rest h1 h2 hinput
    subst hinput
    simp [dsv.quoted_end, h1, h2, dsv.read_line_terminator, dsv.readLTLoop_append]
  · intro ch e es c r h1 h2 htail hinput hne
    subst hinput
    rw [dsv.quoted_end]
    simp only [if_neg h1, h2, if_true, dsv.read_line_terminator, htail]
    simp [dsv.readLTLoop, hne]
  · intro err h
    simp [dsv.quoted_end, h]

/-- C4 witness: `C4_quoted_end` for CSV: an `'x'` after the closing quote
errors, a `'\r'` followed by the matching `'\n'` completes the row, and a
`'\r'` followed by `'\r'` is an invalid line ending. -/
theorem C4_witness :
    dsv.quoted_end dsv.CSV (.ok 'x') ['a'] [] dsv.initState =
      (.error dsv.EXPECTING_LT_OR_DELIM, [], dsv.initState) ∧
    dsv.quoted_end dsv.CSV (.ok '\r') ['a'] ['\n'] dsv.initState =
      (.ok ['a'], [], { dsv.initState with pos := 1, row_done := true }) ∧
    dsv.quoted_end dsv.CSV (.ok '\r') ['a'] ['\r'] dsv.initState =
      (.error INVALID_LINE_ENDING, [], { dsv.initState with pos := 1 }) := by
  have h := C4_quoted_end dsv.CSV ['a'] [] dsv.initState
  have h2 := C4_quoted_end dsv.CSV ['a'] ['\n'] dsv.initState
  have h3 := C4_quoted_end dsv.CSV ['a'] ['\r'] dsv.initState
  refine ⟨h.2.1 'x' (by decide) (by decide), ?_, ?_⟩
  · have := h2.2.2.1 '\r' [] (by decide) (by decide) (by rfl)
    simpa using this
  · have := h3.2.2.2.1 '\r' '\n' [] '\r' [] (by decide) (by decide)
      (by rfl) (by rfl) (by decide)
    simpa using this

/-- C5: the DSV writer quotes a field iff the policy is `Always`, or the
policy is `Minimal` and the field contains the delimiter or a
terminator-starting character; a field not requiring quotes is written raw;
under `Never` a field containing such a character fails with `MUST_QUOTE`
before any of its characters are emitted; in particular the TSV preset
fails with `MUST_QUOTE` on any field containing a tab. -/
theorem C5_write_column_quoting :
    (∀ (cfg : dsv.Config) (col : List Char), cfg.quote = dsv.Quote.Always →
      dsv.is_quote_required cfg col = true) ∧
    (∀ (cfg : dsv.Config) (col : List Char), cfg.quote = dsv.Quote.Minimal →
      (dsv.is_quote_required cfg col = true ↔
        (col.any fun ch => ch == cfg.delimiter || cfg.line_terminator.is_beginning ch) = true)) ∧
    (∀ (cfg : dsv.Config) (col : List Char), dsv.is_quote_required cfg col = true →
      cfg.quote ≠ dsv.Quote.Never →
      ∃ out, (dsv.write_column cfg col).2 = cfg.quote_char :: out) ∧
    (∀ (cfg : dsv.Config) (col : List Char), dsv.is_quote_required cfg col = false →
      dsv.write_column cfg col = (.ok (), col)) ∧
    (∀ (cfg : dsv.Config) (col : List Char), cfg.quote = dsv.Quote.Never →
      (col.any fun ch => ch == cfg.delimiter || cfg.line_terminator.is_beginning ch) = true →
      dsv.write_column cfg col = (.error dsv.MUST_QUOTE, [])) ∧
    (∀ col : List Char, '\t' ∈ col →
      dsv.write_column dsv.TSV col = (.error dsv.MUST_QUOTE, [])) := by
  have hreq : ∀ (cfg : dsv.Config) (col : List Char), cfg.quote = dsv.Quote.Never →
      (col.any fun ch => ch == cfg.delimiter || cfg.line_terminator.is_beginning ch) = true →
      dsv.write_column cfg col = (.error dsv.MUST_QUOTE, []) := by
    intro cfg col hq hany
    have : dsv.is_quote_required cfg col = true := by
      rw [dsv.is_quote_required, if_neg (by simp [hq])]
      exact hany
    rw [dsv.write_column, if_pos this, if_pos hq]
  refine ⟨?_, ?_, ?_, ?_, hreq, ?_⟩
  · intro cfg col h; simp [dsv.is_quote_required, h]
  · intro cfg col h
    rw [dsv.is_quote_required, if_neg (by simp [h])]
  · intro cfg col h hq
    rw [dsv.write_column, if_pos h, if_neg hq]
    rcases hw : dsv.writeQuotedLoop cfg col with ⟨r, out⟩
    cases r with
    | ok u => cases u; exact ⟨out ++ [cfg.quote_char], rfl⟩
    | error e => exact ⟨out, rfl⟩
  · intro cfg col h
    rw [dsv.write_column, if_neg (by simp [h])]
  · intro col h
    refine hreq dsv.TSV col rfl ?_
    exact List.any_eq_true.mpr ⟨'\t', h, by decide⟩

/-- C5 witness: `C5_write_column_quoting` at concrete fields: a field with a
pipe delimiter under a never-quoting pipe configuration fails with
`MUST_QUOTE` writing nothing, and a TSV field containing a tab does too. -/
theorem C5_witness :
    dsv.write_column ⟨'|', '"', .Double, .CRLF, dsv.Quote.Never⟩ ['a', '|', 'b'] =
      (.error dsv.MUST_QUOTE, []) ∧
    dsv.write_column dsv.TSV ['a', '\t', 'b'] = (.error dsv.MUST_QUOTE, []) :=
  ⟨C5_write_column_quoting.2.2.2.2.1 ⟨'|', '"', .Double, .CRLF, dsv.Quote.Never⟩
      ['a', '|', 'b'] rfl (by decide),
   C5_write_column_quoting.2.2.2.2.2 ['a', '\t', 'b'] (by decide)⟩

namespace dsv

/-- Scanning unquoted content of ordinary characters that runs out of input
accumulates everything and, since the accumulated content is then nonempty
and the row not yet complete, ends the field successfully and marks row and
stream complete. -/
theorem readUnquotedLoop_eof (cfg : Config) (f : List Char)
    (hchars : ∀ c ∈ f, c ≠ cfg.delimiter ∧ cfg.line_terminator.is_beginning c = false) :
    ∀ (ch : Char), ch ≠ cfg.delimiter → cfg.line_terminator.is_beginning ch = false →
    ∀ (col : List Char) (st : ColState), st.row_done = false →
      readUnquotedLoop cfg col ch f st =
        (.ok (col ++ ch :: f), [],
          { st with row_done := true, done := true, pos := st.pos + f.length }) := by
  induction f with
  | nil =>
    intro ch hd hb col st hrow
    rw [readUnquotedLoop]
    simp [hb, hd, check_eof, hrow, eofError]
  | cons c r ih =>
    intro ch hd hb col st hrow
    rw [readUnquotedLoop]
    simp only [hb, Bool.false_eq_true, if_false, ne_eq, hd, not_false_eq_true, if_true]
    rw [ih (fun x hx => hchars x (by simp [hx])) c (hchars c (by simp)).1
      (hchars c (by simp)).2 (col ++ [ch]) { st with pos := st.pos + 1 }
      (by simp [hrow])]
    simp [Nat.add_assoc, Nat.add_comm 1 r.length]

end dsv

/-- C3 counterexample: on the CSV input `"abc"` the tokenizer reaches end of
input while accumulating an unquoted field with zero fields produced so far
in the row (`column = 0`) and the allow-empty flag unset, yet the field
terminates successfully as `"abc"` (because the accumulated content is
nonempty) instead of propagating the end-of-stream error as the claim
requires. -/
theorem C3_counterexample :
    dsv.initState.column = 0 ∧ dsv.initState.allow_empty = false ∧
    dsv.read_column dsv.CSV ['a', 'b', 'c'] dsv.initState =
      (.ok ['a', 'b', 'c'], [],
        { dsv.initState with row_done := true, done := true, pos := 3, column := 1 }) :=
  ⟨rfl, rfl, rfl⟩

/-- C3 amended: end of input while scanning an unquoted field of ordinary
characters terminates the field successfully iff the accumulated content is
nonempty or at least one field has already been produced in the current row;
otherwise the end-of-stream error is propagated.  A trailing delimiter at
end of input therefore yields a trailing empty field: `"a,1,c2,"` reads as
the single row `["a","1","c2",""]`. -/
theorem C3_amended (cfg : dsv.Config) (f : List Char) (st : dsv.ColState)
    (hchars : ∀ c ∈ f, c ≠ cfg.delimiter ∧
      cfg.line_terminator.is_beginning c = false ∧ c ≠ cfg.quote_char)
    (hrow : st.row_done = false) :
    (f = [] → st.column = 0 →
      dsv.read_column cfg f st = (.error eofError, [], { st with allow_empty := false })) ∧
    (f ≠ [] ∨ 0 < st.column →
      dsv.read_column cfg f st = (.ok f, [],
        { st with
          allow_empty := false
          row_done := true
          done := true
          pos := st.pos + f.length
          column := st.column + 1 })) ∧
    dsv.read_rows dsv.CSV "a,1,c2,".toList = [.ok [['a'], ['1'], ['c', '2'], []]] := by
  refine ⟨?_, ?_, ?_⟩
  · intro hf hcol
    subst hf
    simp [dsv.read_column, dsv.read_char, dsv.read_unquoted_column, dsv.check_eof,
      hrow, hcol, eofError]
  · intro hor
    cases f with
    | nil =>
      have hcol : 0 < st.column := by
        rcases hor with h | h
        · exact absurd rfl h
        · exact h
      simp [dsv.read_column, dsv.read_char, dsv.read_unquoted_column, dsv.check_eof,
        hrow, hcol, eofError]
    | cons ch r =>
      have hch := hchars ch (by simp)
      have hrest : ∀ c ∈ r, c ≠ cfg.delimiter ∧
          cfg.line_terminator.is_beginning c = false :=
        fun c hc => ⟨(hchars c (by simp [hc])).1, (hchars c (by simp [hc])).2.1⟩
      have hloop := dsv.readUnquotedLoop_eof cfg r hrest ch hch.1 hch.2.1 []
        { st with allow_empty := false, pos := st.pos + 1 } (by simp [hrow])
      have hne : cfg.quote_char ≠ ch := fun hq => hch.2.2 hq.symm
      rcases hquote : cfg.quote with _ | _ | _ <;>
        simp [dsv.read_column, dsv.read_char, dsv.read_unquoted_column, hquote, hne,
          hloop, Nat.add_assoc, Nat.add_comm 1 r.length]
  · simp only [show "a,1,c2,".toList = ['a', ',', '1', ',', 'c', '2', ','] from rfl]
    simp [dsv.read_rows, dsv.readRowsList, dsv.read_row, dsv.collectCols, dsv.colsNext,
      dsv.read_column, dsv.read_char, dsv.read_unquoted_column, dsv.readUnquotedLoop,
      dsv.check_eof, dsv.read_quoted_column, dsv.readQuotedLoop, dsv.quoted_end,
      dsv.read_line_terminator, dsv.readLTLoop, dsv.initState, dsv.CSV, eofError,
      LineTerminator.as_chars, LineTerminator.is_beginning, LineTerminator.byte_len,
      dsv.escape_char]

/-- C3 witness: `C3_amended` applied to CSV with the two-character field
`"xy"` ending at end of input: the field is accepted with row and stream
marked complete. -/
theorem C3_witness :
    dsv.read_column dsv.CSV ['x', 'y'] dsv.initState =
      (.ok ['x', 'y'], [],
        { row_done := true, done := true, allow_empty := false, column := 1, pos := 2 }) := by
  have h := (C3_amended dsv.CSV ['x', 'y'] dsv.initState (by decide) rfl).2.1
    (Or.inl (by decide))
  simpa [dsv.initState] using h

namespace dsv

/-- Unfolding of `readQuotedLoop` on empty input. -/
theorem readQuotedLoop_nil (cfg : Config) (col : List Char) (st : ColState) :
    readQuotedLoop cfg col [] st = (.error eofError, [], st) := by
  rw [readQuotedLoop.eq_def]

/-- Unfolding of `readQuotedLoop` on a first character `ch`. -/
theorem readQuotedLoop_cons (cfg : Config) (col : List Char) (ch : Char)
    (rest : List Char) (st : ColState) :
    readQuotedLoop cfg col (ch :: rest) st =
      (if escape_char cfg ≠ some cfg.quote_char ∧ some ch = escape_char cfg then
        match rest with
        | [] => (.error EXPECTING_QUOTE_CHAR, [], { st with pos := st.pos + 1 })
        | q :: rest2 =>
          if q = cfg.quote_char then
            readQuotedLoop cfg (col ++ [q]) rest2 { st with pos := st.pos + 1 + 1 }
          else (.error EXPECTING_QUOTE_CHAR, rest2, { st with pos := st.pos + 1 + 1 })
      else if escape_char cfg ≠ some cfg.quote_char ∧ ch = cfg.quote_char then
        match rest with
        | [] => quoted_end cfg (.error eofError) col [] { st with pos := st.pos + 1 }
        | c :: rest2 => quoted_end cfg (.ok c) col rest2 { st with pos := st.pos + 1 + 1 }
      else if ch = cfg.quote_char then
        match rest with
        | [] => quoted_end cfg (.error eofError) col [] { st with pos := st.pos + 1 }
        | c :: rest2 =>
          if c = cfg.quote_char then
            readQuotedLoop cfg (col ++ [c]) rest2 { st with pos := st.pos + 1 + 1 }
          else quoted_end cfg (.ok c) col rest2 { st with pos := st.pos + 1 + 1 }
      else readQuotedLoop cfg (col ++ [ch]) rest { st with pos := st.pos + 1 }) := by
  rw [readQuotedLoop.eq_def]

/-- Unfolding of `readUnquotedLoop` when the source is exhausted. -/
theorem readUnquotedLoop_nil (cfg : Config) (col : List Char) (ch : Char)
    (st : ColState) :
    readUnquotedLoop cfg col ch [] st =
      (if cfg.line_terminator.is_beginning ch then
        match read_line_terminator cfg [] st with
        | (.ok (), input', st') => (.ok col, input', st')
        | (.error err, input', st') => (.error err, input', st')
      else if ch ≠ cfg.delimiter then
        check_eof eofError (decide (st.column > 0)) (col ++ [ch]) [] st
      else (.ok col, [], st)) := by
  rw [readUnquotedLoop]

/-- Unfolding of `readUnquotedLoop` when another character is available. -/
theorem readUnquotedLoop_cons (cfg : Config) (col : List Char) (ch c : Char)
    (rest : List Char) (st : ColState) :
    readUnquotedLoop cfg col ch (c :: rest) st =
      (if cfg.line_terminator.is_beginning ch then
        match read_line_terminator cfg (c :: rest) st with
        | (.ok (), input', st') => (.ok col, input', st')
        | (.error err, input', st') => (.error err, input', st')
      else if ch ≠ cfg.delimiter then
        readUnquotedLoop cfg (col ++ [ch]) c rest { st with pos := st.pos + 1 }
      else (.ok col, c :: rest, st)) := by
  rw [readUnquotedLoop]

/-- With a distinct escape character equal to the quote character, the
escape-character accessor agrees with the doubled-quote rule's. -/
theorem escape_char_Char_quote (d q : Char) (lt : LineTerminator) (qt : Quote) :
    escape_char ⟨d, q, .Char q, lt, qt⟩ = escape_char ⟨d, q, .Double, lt, qt⟩ := rfl

/-- Quoted-field scanning under `Escape::Char(q)` with `q` the quote
character coincides with scanning under `Escape::Double` on every input:
both make the distinct-escape guards false, so the extra
expecting-quote-char check is never reached. -/
theorem readQuotedLoop_Char_quote_eq_Double (d q : Char) (lt : LineTerminator)
    (qt : Quote) : ∀ (n : Nat) (input : List Char), input.length ≤ n →
    ∀ (col : List Char) (st : ColState),
      readQuotedLoop ⟨d, q, .Char q, lt, qt⟩ col input st =
        readQuotedLoop ⟨d, q, .Double, lt, qt⟩ col input st := by
  intro n
  induction n with
  | zero =>
    intro input hle col st
    have h0 : input = [] := List.length_eq_zero.mp (Nat.le_zero.mp hle)
    subst h0
    rfl
  | succ n ih =>
    intro input hle col st
    cases input with
    | nil => rfl
    | cons ch rest =>
      have hrest : rest.length ≤ n := by simpa using hle
      rw [readQuotedLoop_cons, readQuotedLoop_cons]
      simp only [escape_char, ne_eq, not_true_eq_false, false_and, if_false]
      by_cases hch : ch = q
      · simp only [hch, if_true]
        cases rest with
        | nil => rfl
        | cons c rest2 =>
          by_cases hc : c = q
          · simp only [hc, if_true]
            exact ih rest2 (by simp at hrest; omega) (col ++ [q]) _
          · simp only [hc, if_false]
            rfl
      · simp only [hch, if_false]
        exact ih rest hrest (col ++ [ch]) _

/-- Unquoted-field scanning does not consult the escape rule at all, so it
also coincides between the two configurations. -/
theorem readUnquotedLoop_Char_quote_eq_Double (d q : Char) (lt : LineTerminator)
    (qt : Quote) : ∀ (n : Nat) (input : List Char), input.length ≤ n →
    ∀ (col : List Char) (ch : Char) (st : ColState),
      readUnquotedLoop ⟨d, q, .Char q, lt, qt⟩ col ch input st =
        readUnquotedLoop ⟨d, q, .Double, lt, qt⟩ col ch input st := by
  intro n
  induction n with
  | zero =>
    intro input hle col ch st
    have h0 : input = [] := List.length_eq_zero.mp (Nat.le_zero.mp hle)
    subst h0
    rfl
  | succ n ih =>
    intro input hle col ch st
    cases input with
    | nil => rfl
    | cons c rest =>
      have hrest : rest.length ≤ n := by simpa using hle
      rw [readUnquotedLoop_cons, readUnquotedLoop_cons]
      by_cases hb : (LineTerminator.is_beginning lt ch) = true
      · simp only [hb, if_true]
        rfl
      · simp only [hb, if_false]
        by_cases hd : ch = d
        · simp only [hd]
          simp
        · simp only [ne_eq, hd, not_false_eq_true, if_true]
          exact ih rest hrest (col ++ [ch]) c _

end dsv

/-- C9: for every delimiter, quote character `q`, line terminator and
quoting policy, the DSV column tokenizer under the distinct-escape rule
`Escape::Char(q)` (escape character equal to the quote character) behaves on
every input and cursor state exactly as under `Escape::Double`: both
`read_column` and the column iterator step `Columns::next` agree, so the
extra expecting-quote-char validity check of the distinct-character path is
never taken. -/
theorem C9_escape_char_quote_equals_double (d q : Char) (lt : LineTerminator)
    (qt : dsv.Quote) (input : List Char) (st : dsv.ColState) :
    dsv.read_column ⟨d, q, .Char q, lt, qt⟩ input st =
      dsv.read_column ⟨d, q, .Double, lt, qt⟩ input st ∧
    dsv.colsNext ⟨d, q, .Char q, lt, qt⟩ input st =
      dsv.colsNext ⟨d, q, .Double, lt, qt⟩ input st := by
  have hcol : ∀ (input : List Char) (st : dsv.ColState),
      dsv.read_column ⟨d, q, .Char q, lt, qt⟩ input st =
        dsv.read_column ⟨d, q, .Double, lt, qt⟩ input st := by
    intro input st
    cases input with
    | nil => rfl
    | cons c rest =>
      have hQ := dsv.readQuotedLoop_Char_quote_eq_Double d q lt qt rest.length rest le_rfl
      have hU := dsv.readUnquotedLoop_Char_quote_eq_Double d q lt qt rest.length rest le_rfl
      by_cases hn : qt = dsv.Quote.Never
      · subst hn
        simp [dsv.read_column, dsv.read_char, dsv.read_unquoted_column, hU]
      · by_cases hq : q = c
        · subst hq
          simp [dsv.read_column, dsv.read_char, dsv.read_quoted_column, hn, hQ]
        · simp [dsv.read_column, dsv.read_char, dsv.read_unquoted_column,
            dsv.read_quoted_column, hn, hq, hU, hQ]
  refine ⟨hcol input st, ?_⟩
  rw [dsv.colsNext, dsv.colsNext, hcol input st]


namespace dsv

/-- Delimiter of the `CSV` preset. -/
theorem csv_delimiter : CSV.delimiter = ',' := rfl

/-- Quote character of the `CSV` preset. -/
theorem csv_quote_char : CSV.quote_char = '"' := rfl

/-- Escape character of the `CSV` preset: the quote character itself. -/
theorem csv_escape_char : escape_char CSV = some '"' := rfl

/-- Quoting policy of the `CSV` preset. -/
theorem csv_quote : CSV.quote = Quote.Minimal := rfl

/-- Line terminator literal of the `CSV` preset. -/
theorem csv_lt_chars : CSV.line_terminator.as_chars = ['\r', '\n'] := rfl

/-- The quoted-character loop of the CSV writer doubles quotes and succeeds
on every content. -/
theorem writeQuotedLoop_csv (f : List Char) :
    writeQuotedLoop CSV f = (.ok (), csvEsc f) := by
  induction f with
  | nil => rfl
  | cons c r ih =>
    by_cases hc : c = '"'
    · subst hc
      rw [writeQuotedLoop]
      simp [csv_quote_char, csv_escape_char, ih, csvEsc]
    · rw [writeQuotedLoop]
      simp [csv_quote_char, csv_escape_char, hc, csvEsc, ih]

/-- The CSV column writer always succeeds and emits `csvField`. -/
theorem write_column_csv (f : List Char) :
    write_column CSV f = (.ok (), csvField f) := by
  by_cases hr : is_quote_required CSV f
  · rw [write_column, if_pos hr, if_neg (by decide), writeQuotedLoop_csv]
    simp [csvField, hr, csv_quote_char]
  · rw [write_column, if_neg hr]
    simp [csvField, hr]

/-- The non-first part of the CSV row writer emits `csvTail`. -/
theorem writeRowLoop_false_csv (fs : List (List Char)) :
    writeRowLoop CSV false fs = (.ok (), csvTail fs) := by
  induction fs with
  | nil => rfl
  | cons f fs ih =>
    rw [writeRowLoop, write_column_csv, ih]
    simp [csvTail, csv_delimiter]

/-- The CSV row writer always succeeds, emitting the joined fields followed
by CRLF. -/
theorem write_row_csv (r : List (List Char)) :
    write_row CSV r = (.ok (), csvBody r ++ ['\r', '\n']) := by
  cases r with
  | nil =>
    rw [write_row]
    rfl
  | cons f fs =>
    rw [write_row, writeRowLoop, write_column_csv, writeRowLoop_false_csv]
    simp [csvBody, csv_lt_chars]

/-- The CSV rows writer always succeeds, emitting `csvFile`. -/
theorem write_rows_csv (rows : List (List (List Char))) :
    write_rows CSV rows = (.ok (), csvFile rows) := by
  induction rows with
  | nil => rfl
  | cons r rs ih =>
    rw [write_rows, write_row_csv, ih]
    simp [csvFile]

end dsv

namespace dsv

/-- Terminator-start test of the `CSV` preset. -/
theorem csv_is_beginning (c : Char) :
    CSV.line_terminator.is_beginning c = (c == '\r') := rfl

/-- Quoting is required under CSV exactly for fields containing a comma or a
carriage return. -/
theorem is_quote_required_csv (f : List Char) :
    is_quote_required CSV f = f.any fun c => c == ',' || c == '\r' := by
  rw [is_quote_required, if_neg (by decide)]
  simp [csv_delimiter, csv_is_beginning]

/-- Characters of a CSV field that does not require quoting are ordinary:
neither the delimiter nor the terminator start. -/
theorem csv_not_required {f : List Char} (h : is_quote_required CSV f = false) :
    ∀ c ∈ f, c ≠ ',' ∧ c ≠ '\r' := by
  intro c hc
  constructor <;> intro he <;> subst he
  · have : is_quote_required CSV f = true := by
      rw [is_quote_required_csv]
      exact List.any_eq_true.mpr ⟨',', hc, by decide⟩
    simp [this] at h
  · have : is_quote_required CSV f = true := by
      rw [is_quote_required_csv]
      exact List.any_eq_true.mpr ⟨'\r', hc, by decide⟩
    simp [this] at h

/-- A comma as the current character ends the unquoted field at once. -/
theorem readUnquotedLoop_csv_comma (col input : List Char) (st : ColState) :
    readUnquotedLoop CSV col ',' input st = (.ok col, input, st) := by
  cases input with
  | nil =>
    rw [readUnquotedLoop_nil]
    simp [csv_is_beginning, csv_delimiter]
  | cons c r =>
    rw [readUnquotedLoop_cons]
    simp [csv_is_beginning, csv_delimiter]

/-- A carriage return as the current character followed by the line feed
completes the row, consuming the line feed. -/
theorem readUnquotedLoop_csv_cr (col rest : List Char) (st : ColState) :
    readUnquotedLoop CSV col '\r' ('\n' :: rest) st =
      (.ok col, rest, { st with pos := st.pos + 1, row_done := true }) := by
  rw [readUnquotedLoop_cons]
  simp [csv_is_beginning, read_line_terminator, csv_lt_chars, readLTLoop]

/-- Unquoted scanning of ordinary content up to a delimiter: the delimiter
is consumed and the field ends with the row still open. -/
theorem readUnquotedLoop_csv_delim (f : List Char)
    (hf : ∀ c ∈ f, c ≠ ',' ∧ c ≠ '\r') :
    ∀ (ch : Char), ch ≠ ',' → ch ≠ '\r' →
    ∀ (col rest : List Char) (st : ColState),
      readUnquotedLoop CSV col ch (f ++ ',' :: rest) st =
        (.ok (col ++ ch :: f), rest, { st with pos := st.pos + f.length + 1 }) := by
  induction f with
  | nil =>
    intro ch h1 h2 col rest st
    rw [List.nil_append, readUnquotedLoop_cons]
    simp only [csv_is_beginning, beq_eq_false_iff_ne.mpr h2, Bool.false_eq_true, if_false,
      ne_eq, csv_delimiter, h1, not_false_eq_true, if_true]
    rw [readUnquotedLoop_csv_comma]
    simp
  | cons c f' ih =>
    intro ch h1 h2 col rest st
    rw [List.cons_append, readUnquotedLoop_cons]
    simp only [csv_is_beginning, beq_eq_false_iff_ne.mpr h2, Bool.false_eq_true, if_false,
      ne_eq, csv_delimiter, h1, not_false_eq_true, if_true]
    rw [ih (fun x hx => hf x (by simp [hx])) c (hf c (by simp)).1 (hf c (by simp)).2
      (col ++ [ch]) rest { st with pos := st.pos + 1 }]
    simp [Nat.add_assoc, Nat.add_comm 1, Nat.add_left_comm]

/-- Unquoted scanning of ordinary content up to the line terminator: the
full terminator is consumed and the row is complete. -/
theorem readUnquotedLoop_csv_term (f : List Char)
    (hf : ∀ c ∈ f, c ≠ ',' ∧ c ≠ '\r') :
    ∀ (ch : Char), ch ≠ ',' → ch ≠ '\r' →
    ∀ (col rest : List Char) (st : ColState),
      readUnquotedLoop CSV col ch (f ++ '\r' :: '\n' :: rest) st =
        (.ok (col ++ ch :: f), rest,
          { st with pos := st.pos + f.length + 2, row_done := true }) := by
  induction f with
  | nil =>
    intro ch h1 h2 col rest st
    rw [List.nil_append, readUnquotedLoop_cons]
    simp only [csv_is_beginning, beq_eq_false_iff_ne.mpr h2, Bool.false_eq_true, if_false,
      ne_eq, csv_delimiter, h1, not_false_eq_true, if_true]
    rw [readUnquotedLoop_csv_cr]
    simp [Nat.add_assoc]
  | cons c f' ih =>
    intro ch h1 h2 col rest st
    rw [List.cons_append, readUnquotedLoop_cons]
    simp only [csv_is_beginning, beq_eq_false_iff_ne.mpr h2, Bool.false_eq_true, if_false,
      ne_eq, csv_delimiter, h1, not_false_eq_true, if_true]
    rw [ih (fun x hx => hf x (by simp [hx])) c (hf c (by simp)).1 (hf c (by simp)).2
      (col ++ [ch]) rest { st with pos := st.pos + 1 }]
    simp [Nat.add_assoc, Nat.add_comm 1, Nat.add_left_comm]

end dsv

namespace dsv

/-- Unfolding of `readQuotedLoop` when at least two characters are
available: the inner reads of the escape and quote branches are resolved. -/
theorem readQuotedLoop_cons2 (cfg : Config) (col : List Char) (ch c : Char)
    (rest2 : List Char) (st : ColState) :
    readQuotedLoop cfg col (ch :: c :: rest2) st =
      (if escape_char cfg ≠ some cfg.quote_char ∧ some ch = escape_char cfg then
        (if c = cfg.quote_char then
          readQuotedLoop cfg (col ++ [c]) rest2 { st with pos := st.pos + 1 + 1 }
        else (.error EXPECTING_QUOTE_CHAR, rest2, { st with pos := st.pos + 1 + 1 }))
      else if escape_char cfg ≠ some cfg.quote_char ∧ ch = cfg.quote_char then
        quoted_end cfg (.ok c) col rest2 { st with pos := st.pos + 1 + 1 }
      else if ch = cfg.quote_char then
        (if c = cfg.quote_char then
          readQuotedLoop cfg (col ++ [c]) rest2 { st with pos := st.pos + 1 + 1 }
        else quoted_end cfg (.ok c) col rest2 { st with pos := st.pos + 1 + 1 })
      else readQuotedLoop cfg (col ++ [ch]) (c :: rest2) { st with pos := st.pos + 1 }) := by
  rw [readQuotedLoop_cons]

/-- Quoted scanning of doubled-quote-encoded content: after consuming the
encoding and the closing quote, the result is `quoted_end` on the following
character (or the end-of-stream completion when nothing follows).  Requires
only that the character after the closing quote is not another quote. -/
theorem readQuotedLoop_csv (rest : List Char) (hr : rest.head? ≠ some '"')
    (f : List Char) :
    ∀ (col : List Char) (st : ColState),
      readQuotedLoop CSV col (csvEsc f ++ '"' :: rest) st =
        (match rest with
         | [] => (.ok (col ++ f), [],
             { st with
               pos := st.pos + ((csvEsc f).length + 1)
               row_done := true
               done := true })
         | c :: r => quoted_end CSV (.ok c) (col ++ f) r
             { st with pos := st.pos + ((csvEsc f).length + 2) }) := by
  induction f with
  | nil =>
    intro col st
    rw [show csvEsc [] = ([] : List Char) from rfl, List.nil_append, readQuotedLoop_cons]
    simp only [csv_escape_char, csv_quote_char, ne_eq, not_true_eq_false, false_and,
      if_false, if_true]
    cases rest with
    | nil => simp [quoted_end, eofError]
    | cons c r =>
      have hc : ¬(c = '"') := by simpa using hr
      simp [hc]
  | cons a f' ih =>
    intro col st
    by_cases ha : a = '"'
    · subst ha
      rw [show csvEsc ('"' :: f') ++ '"' :: rest =
          '"' :: '"' :: (csvEsc f' ++ '"' :: rest) from by simp [csvEsc],
        readQuotedLoop_cons2]
      simp only [csv_escape_char, csv_quote_char, ne_eq, not_true_eq_false, false_and,
        if_false, if_true]
      rw [ih (col ++ ['"']) { st with pos := st.pos + 1 + 1 }]
      cases rest <;>
        simp [csvEsc, Nat.add_assoc, Nat.add_comm 1, Nat.add_left_comm, List.append_assoc]
    · rw [show csvEsc (a :: f') ++ '"' :: rest =
          a :: (csvEsc f' ++ '"' :: rest) from by simp [csvEsc, ha],
        readQuotedLoop_cons]
      simp only [csv_escape_char, csv_quote_char, ne_eq, not_true_eq_false, false_and,
        if_false, ha]
      rw [ih (col ++ [a]) { st with pos := st.pos + 1 }]
      cases rest <;>
        simp [csvEsc, ha, Nat.add_assoc, Nat.add_comm 1, Nat.add_left_comm,
          List.append_assoc]

end dsv

namespace dsv

/-- Reading one written CSV field followed by a delimiter: the field is
recovered, the delimiter consumed, the column counted, and the row stays
open. -/
theorem read_column_csv_delim (f : List Char) (hg : csvGoodField f)
    (rest : List Char) (st : ColState) :
    read_column CSV (csvField f ++ ',' :: rest) st =
      (.ok f, rest,
        { st with
          pos := st.pos + (csvField f).length + 1
          column := st.column + 1
          allow_empty := is_quote_required CSV f }) := by
  by_cases hreq : is_quote_required CSV f
  · rw [show csvField f ++ ',' :: rest = '"' :: (csvEsc f ++ '"' :: (',' :: rest)) from by
      simp [csvField, hreq, List.append_assoc]]
    rw [read_column, read_char]
    simp only [if_neg (by decide : ¬CSV.quote = Quote.Never), csv_quote_char, if_true]
    rw [read_quoted_column, readQuotedLoop_csv (',' :: rest) (by simp) f []]
    simp only [quoted_end, csv_delimiter, if_true, List.nil_append]
    simp [csvField, hreq, Nat.add_assoc, Nat.add_comm 1, Nat.add_left_comm]
  · have hf := csv_not_required (by simpa using hreq)
    have hhead : f.head? ≠ some '"' := by
      rcases hg with h | h
      · exact h
      · simp [h] at hreq
    cases f with
    | nil =>
      rw [show csvField [] ++ ',' :: rest = ',' :: rest from by simp [csvField, hreq]]
      rw [read_column, read_char]
      simp only [if_neg (by decide : ¬CSV.quote = Quote.Never),
        if_neg (by decide : ¬CSV.quote_char = ','), read_unquoted_column]
      rw [readUnquotedLoop_csv_comma]
      simp [csvField, hreq, is_quote_required_csv]
    | cons ch f' =>
      have hch : ch ≠ '"' := by simpa using hhead
      have hch2 : ¬(CSV.quote_char = ch) := by
        rw [csv_quote_char]
        exact fun h => hch h.symm
      rw [show csvField (ch :: f') ++ ',' :: rest = ch :: (f' ++ ',' :: rest) from by
        simp [csvField, hreq]]
      rw [read_column, read_char]
      simp only [if_neg (by decide : ¬CSV.quote = Quote.Never), if_neg hch2,
        read_unquoted_column]
      rw [readUnquotedLoop_csv_delim f' (fun x hx => hf x (by simp [hx]))
        ch (hf ch (by simp)).1 (hf ch (by simp)).2 [] rest _]
      simp [csvField, hreq, Nat.add_assoc, Nat.add_comm 1, Nat.add_left_comm]

/-- Reading one written CSV field followed by the line terminator: the field
is recovered, the terminator consumed, and the row is complete. -/
theorem read_column_csv_term (f : List Char) (hg : csvGoodField f)
    (rest : List Char) (st : ColState) :
    read_column CSV (csvField f ++ '\r' :: '\n' :: rest) st =
      (.ok f, rest,
        { st with
          pos := st.pos + (csvField f).length + 2
          column := st.column + 1
          allow_empty := is_quote_required CSV f
          row_done := true }) := by
  by_cases hreq : is_quote_required CSV f
  · rw [show csvField f ++ '\r' :: '\n' :: rest =
        '"' :: (csvEsc f ++ '"' :: ('\r' :: '\n' :: rest)) from by
      simp [csvField, hreq, List.append_assoc]]
    rw [read_column, read_char]
    simp only [if_neg (by decide : ¬CSV.quote = Quote.Never), csv_quote_char, if_true]
    rw [read_quoted_column, readQuotedLoop_csv ('\r' :: '\n' :: rest) (by simp) f []]
    simp only [quoted_end, if_neg (by decide : ¬('\r' = CSV.delimiter)), csv_is_beginning,
      read_line_terminator, csv_lt_chars, List.drop_succ_cons, List.drop_zero, readLTLoop]
    simp [csvField, hreq, Nat.add_assoc, Nat.add_comm 1, Nat.add_left_comm]
  · have hf := csv_not_required (by simpa using hreq)
    have hhead : f.head? ≠ some '"' := by
      rcases hg with h | h
      · exact h
      · simp [h] at hreq
    cases f with
    | nil =>
      rw [show csvField [] ++ '\r' :: '\n' :: rest = '\r' :: '\n' :: rest from by
        simp [csvField, hreq]]
      rw [read_column, read_char]
      simp only [if_neg (by decide : ¬CSV.quote = Quote.Never),
        if_neg (by decide : ¬CSV.quote_char = '\r'), read_unquoted_column]
      rw [readUnquotedLoop_csv_cr]
      simp [csvField, hreq, is_quote_required_csv, Nat.add_assoc]
    | cons ch f' =>
      have hch : ch ≠ '"' := by simpa using hhead
      have hch2 : ¬(CSV.quote_char = ch) := by
        rw [csv_quote_char]
        exact fun h => hch h.symm
      rw [show csvField (ch :: f') ++ '\r' :: '\n' :: rest =
          ch :: (f' ++ '\r' :: '\n' :: rest) from by simp [csvField, hreq]]
      rw [read_column, read_char]
      simp only [if_neg (by decide : ¬CSV.quote = Quote.Never), if_neg hch2,
        read_unquoted_column]
      rw [readUnquotedLoop_csv_term f' (fun x hx => hf x (by simp [hx]))
        ch (hf ch (by simp)).1 (hf ch (by simp)).2 [] rest _]
      simp [csvField, hreq, Nat.add_assoc, Nat.add_comm 1, Nat.add_left_comm]

end dsv

/-- Written fields are at least as many characters as fields written. -/
theorem csvTail_length (fs : List (List Char)) : fs.length ≤ (csvTail fs).length := by
  induction fs with
  | nil => simp [csvTail]
  | cons f fs ih => simp [csvTail]; omega

/-- A written row body is at most one character shorter than its field
count. -/
theorem csvBody_length (r : List (List Char)) : r.length ≤ (csvBody r).length + 1 := by
  cases r with
  | nil => simp [csvBody]
  | cons f fs =>
    have := csvTail_length fs
    simp [csvBody]
    omega

/-- A nonempty field is written as at least one character. -/
theorem csvField_length {f : List Char} (hf : f ≠ []) : 1 ≤ (csvField f).length := by
  rw [csvField]
  split
  · simp
  · cases f with
    | nil => exact absurd rfl hf
    | cons c r => simp

/-- A good row's written body is nonempty. -/
theorem csvBody_pos {r : List (List Char)} (hg : csvGoodRow r) :
    1 ≤ (csvBody r).length := by
  rcases hg with ⟨hne, hse, _⟩
  cases r with
  | nil => exact absurd rfl hne
  | cons f fs =>
    cases fs with
    | nil =>
      have hf : f ≠ [] := fun h => hse (by rw [h])
      have := csvField_length hf
      simp [csvBody, csvTail]
      omega
    | cons g gs =>
      simp [csvBody, csvTail]
      omega

/-- A written file has at least one character per row. -/
theorem csvFile_length (rows : List (List (List Char))) :
    rows.length ≤ (csvFile rows).length := by
  induction rows with
  | nil => simp [csvFile]
  | cons r rs ih => simp [csvFile]; omega

namespace dsv

/-- Collecting the columns of one good written row consumes the body and the
terminator and returns exactly the row's fields appended to the
accumulator. -/
theorem collectCols_csv (fs : List (List Char)) :
    fs ≠ [] → (∀ f ∈ fs, csvGoodField f) →
    ∀ (fuel : Nat) (rest : List Char) (acc : List (List Char)) (st : ColState),
      fs.length + 1 ≤ fuel → st.row_done = false →
      1 ≤ st.pos + (csvBody fs).length →
      ∃ stF, collectCols CSV fuel (csvBody fs ++ '\r' :: '\n' :: rest) st acc =
        (.ok (acc ++ fs), rest, stF) := by
  induction fs with
  | nil => intro hne; exact absurd rfl hne
  | cons f fs' ih =>
    intro _ hg fuel rest acc st hfuel hrow hpos
    obtain ⟨k, rfl⟩ : ∃ k, fuel = k + 1 := ⟨fuel - 1, by omega⟩
    cases fs' with
    | nil =>
      have hp1 : 1 ≤ st.pos + (csvField f).length := by
        simpa [csvBody, csvTail] using hpos
      refine ⟨{ st with
        pos := st.pos + (csvField f).length + 2
        column := st.column + 1
        allow_empty := is_quote_required CSV f
        row_done := true }, ?_⟩
      rw [show csvBody [f] ++ '\r' :: '\n' :: rest = csvField f ++ '\r' :: '\n' :: rest
        from by simp [csvBody, csvTail]]
      rw [collectCols, colsNext, if_neg (by simp [hrow]),
        read_column_csv_term f (hg f (by simp)) rest st]
      have hp2 : ¬(st.pos + (csvField f).length + 2 =
          LineTerminator.byte_len CSV.line_terminator) := by
        have hd : LineTerminator.byte_len CSV.line_terminator = 2 := rfl
        omega
      simp only [hp2, and_false, if_false, false_and]
      obtain ⟨k2, rfl⟩ : ∃ k2, k = k2 + 1 := ⟨k - 1, by simp at hfuel; omega⟩
      rw [collectCols, colsNext, if_pos (by simp)]
    | cons g gs =>
      rw [show csvBody (f :: g :: gs) ++ '\r' :: '\n' :: rest =
          csvField f ++ ',' :: (csvBody (g :: gs) ++ '\r' :: '\n' :: rest) from by
        simp [csvBody, csvTail, List.append_assoc]]
      rw [collectCols, colsNext, if_neg (by simp [hrow]),
        read_column_csv_delim f (hg f (by simp)) _ st]
      simp only [hrow, Bool.false_eq_true, false_and, if_false]
      obtain ⟨stF, hF⟩ := ih (by simp) (fun x hx => hg x (by simp [hx])) k rest
        (acc ++ [f])
        { st with
          row_done := false
          pos := st.pos + (csvField f).length + 1
          column := st.column + 1
          allow_empty := is_quote_required CSV f }
        (by simp at hfuel ⊢; omega) (by simp) (by simp; omega)
      refine ⟨stF, ?_⟩
      rw [hF]
      simp

/-- Reading one good written row from the row reader returns exactly that
row and leaves the remaining input untouched. -/
theorem read_row_csv (r : List (List Char)) (hg : csvGoodRow r) (fuel : Nat)
    (rest : List Char) :
    read_row CSV (fuel + 1) (csvBody r ++ '\r' :: '\n' :: rest) = (.ok r, rest) := by
  rw [read_row]
  obtain ⟨stF, hF⟩ := collectCols_csv r hg.1 hg.2.2
    ((csvBody r ++ '\r' :: '\n' :: rest).length + 2) rest [] initState
    (by have := csvBody_length r; simp; omega) rfl
    (by have := csvBody_pos hg; simp [initState]; omega)
  rw [hF]
  have hlen : ¬(r.length = 0) := fun h => hg.1 (List.length_eq_zero.mp h)
  simp [hlen]

/-- The row reader on an exhausted source reports the empty row with the
stream done. -/
theorem read_row_csv_nil (fuel : Nat) : read_row CSV (fuel + 1) [] = (.ok [], []) := by
  rw [read_row]
  rfl

/-- The collected row stream of a good written file is exactly the original
rows. -/
theorem readRowsList_csv (rows : List (List (List Char)))
    (hg : ∀ r ∈ rows, csvGoodRow r) :
    ∀ fuel : Nat, rows.length + 1 ≤ fuel →
      readRowsList CSV fuel (csvFile rows) = rows.map Except.ok := by
  induction rows with
  | nil =>
    intro fuel hf
    obtain ⟨k, rfl⟩ : ∃ k, fuel = k + 1 := ⟨fuel - 1, by omega⟩
    rw [show csvFile [] = ([] : List Char) from rfl, readRowsList,
      show ([] : List Char).length + 1 = 0 + 1 from rfl, read_row_csv_nil]
    simp
  | cons r rows' ih =>
    intro fuel hf
    obtain ⟨k, rfl⟩ : ∃ k, fuel = k + 1 := ⟨fuel - 1, by omega⟩
    rw [readRowsList,
      show csvFile (r :: rows') = csvBody r ++ '\r' :: '\n' :: csvFile rows' from by
        simp [csvFile],
      read_row_csv r (hg r (by simp)) _ (csvFile rows')]
    have hlen : ¬(r.length = 0) := fun h => (hg r (by simp)).1 (List.length_eq_zero.mp h)
    simp only [hlen, if_false]
    rw [ih (fun x hx => hg x (by simp [hx])) k (by simp at hf ⊢; omega)]
    simp

end dsv

/-- C1 counterexample: the row consisting of the single empty field is
written as a bare line terminator, which the reader skips as a blank line,
so reading back the written output loses the row even though its field
contains no conflicting raw terminator; and a field beginning with the
quote character but not requiring quotes is written raw and misparsed as a
quoted field on reread, ending in an end-of-input error.  Both inputs are
in the claim's stated domain. -/
theorem C1_counterexample :
    dsv.read_rows dsv.CSV (dsv.write_rows dsv.CSV [[[]]]).2 = [] ∧
    dsv.read_rows dsv.CSV (dsv.write_rows dsv.CSV [[[]]]).2 ≠
      [[[]]].map Except.ok ∧
    dsv.read_rows dsv.CSV (dsv.write_rows dsv.CSV [[['"', 'a']]]).2 =
      [.error eofError] ∧
    dsv.read_rows dsv.CSV (dsv.write_rows dsv.CSV [[['"', 'a']]]).2 ≠
      [[['"', 'a']]].map Except.ok := by
  refine ⟨by rfl, ?_, by rfl, ?_⟩
  · intro h
    rw [show dsv.read_rows dsv.CSV (dsv.write_rows dsv.CSV [[[]]]).2 = [] from by rfl] at h
    simp at h
  · intro h
    rw [show dsv.read_rows dsv.CSV (dsv.write_rows dsv.CSV [[['"', 'a']]]).2 =
      [.error eofError] from by rfl] at h
    simp [eofError] at h

/-- C1 amended: for the CSV preset, reading back the writer's output
reproduces the original rows for every row sequence in which each row is
nonempty, no row is the single empty field, and every field beginning with
the quote character also requires quoting (contains the delimiter or a
terminator-starting character); the writer itself always succeeds. -/
theorem C1_csv_roundtrip (rows : List (List (List Char)))
    (hg : ∀ r ∈ rows, csvGoodRow r) :
    dsv.write_rows dsv.CSV rows = (.ok (), csvFile rows) ∧
    dsv.read_rows dsv.CSV (dsv.write_rows dsv.CSV rows).2 = rows.map Except.ok := by
  refine ⟨dsv.write_rows_csv rows, ?_⟩
  rw [dsv.write_rows_csv rows, dsv.read_rows]
  exact dsv.readRowsList_csv rows hg ((csvFile rows).length + 1)
    (by have := csvFile_length rows; omega)

/-- C1 witness: `C1_csv_roundtrip` at two concrete rows containing the
delimiter, the quote character, an empty field and an embedded terminator
byte. -/
theorem C1_witness :
    (∀ r ∈ ([[['a'], ['b', ',', 'c']], [[], ['x', '"', 'y'], ['"', '\r', 'z']]] :
        List (List (List Char))), csvGoodRow r) ∧
    dsv.read_rows dsv.CSV
        (dsv.write_rows dsv.CSV
          [[['a'], ['b', ',', 'c']], [[], ['x', '"', 'y'], ['"', '\r', 'z']]]).2 =
      [.ok [['a'], ['b', ',', 'c']], .ok [[], ['x', '"', 'y'], ['"', '\r', 'z']]] :=
  ⟨by decide, by
    have h := (C1_csv_roundtrip
      [[['a'], ['b', ',', 'c']], [[], ['x', '"', 'y'], ['"', '\r', 'z']]] (by decide)).2
    simpa using h⟩
